import Mathlib

/-!
# BaseBall wagered-match ledger: a shallow embedding and verification

This file embeds the escrow ledger contract (`src/contracts/BaseBall.sol`),
the realtime relay routing (`src/server/index.js`) and the match client's
completion logic (the Game component) as executable Lean definitions, and
proves the spec's testable properties over them.

Modelling conventions:
* Solidity `uint256` values (amounts, timestamps, counters) are modelled as
  `Nat`.  Solidity 0.8 checked arithmetic reverts on overflow; every property
  proved below is proved for all `Nat` values, so it holds a fortiori on the
  overflow-checked subset of executions.  The single subtraction in the
  contract (`totalPot - fee`) is shown to never truncate.
* `address` is modelled as `Nat`, with `0` standing for `address(0)`.
* A reverting call is an `Except.error` carrying the exact `require` message
  from the source; the caller's state is unchanged on error (EVM revert
  semantics, made explicit by `execTx`).
* Outbound ETH transfers (`payable(x).call{value: v}("")`) are modelled by a
  `TransferOracle` saying whether the recipient accepts the funds, and each
  mutating call returns the list of transfers it performed.
* `lockedFunds` instruments the ETH held by the contract on behalf of each
  game id: it increases by `msg.value` at the two payable deposit sites
  (`createGame`, `joinGame`) and decreases at each outbound `call{value:}`
  site, attributed to the game the call settles.  This is exactly the
  spec's `funds_locked(matchId)` quantity.
-/

namespace BaseBall

/-- Ethereum addresses, modelled as naturals; `0` is `address(0)`. -/
abbrev Address := Nat

/-- The `GameStatus` enum from the contract (declaration order matters:
`Pending` is the default value `0` of an untouched mapping slot). -/
inductive GameStatus where
  | Pending
  | Active
  | Completed
  | Cancelled
deriving DecidableEq, Repr

/-- The `Game` struct from the contract. -/
structure Game where
  host : Address
  player : Address
  wager : Nat
  difficulty : Nat
  status : GameStatus
  gameId : Nat
  createdAt : Nat
  expiresAt : Nat
deriving DecidableEq, Repr

/-- The `PlayerStats` struct from the contract. -/
structure PlayerStats where
  wins : Nat
  totalWinnings : Nat
  gamesPlayed : Nat
deriving DecidableEq, Repr

/-- The zero value a Solidity mapping yields for an untouched `Game` slot. -/
def defaultGame : Game :=
  { host := 0, player := 0, wager := 0, difficulty := 0, status := .Pending,
    gameId := 0, createdAt := 0, expiresAt := 0 }

/-- The zero value for an untouched `PlayerStats` slot. -/
def defaultStats : PlayerStats :=
  { wins := 0, totalWinnings := 0, gamesPlayed := 0 }

/-- Pointwise update of a mapping, used to model Solidity storage writes. -/
def updFn {β : Type} (m : Nat → β) (k : Nat) (v : β) : Nat → β :=
  fun i => if i = k then v else m i

/-- The contract's storage, plus the `lockedFunds` ETH-flow instrumentation
described in the file header. -/
structure ContractState where
  games : Nat → Game
  playerStats : Address → PlayerStats
  playerGames : Address → List Nat
  gameCounter : Nat
  feeWallet : Address
  owner : Address
  lockedFunds : Nat → Nat

/-- `FEE_PERCENTAGE = 100` basis points (1%) — a contract constant. -/
def FEE_PERCENTAGE : Nat := 100

/-- `7 days` in seconds, the bound on `expirationDuration`. -/
def SEVEN_DAYS : Nat := 7 * 24 * 60 * 60

/-- The constructor: `owner = msg.sender`, `feeWallet = _feeWallet`,
`gameCounter = 0`, all mappings empty, no ETH held. -/
def initState (deployer feeW : Address) : ContractState :=
  { games := fun _ => defaultGame
    playerStats := fun _ => defaultStats
    playerGames := fun _ => []
    gameCounter := 0
    feeWallet := feeW
    owner := deployer
    lockedFunds := fun _ => 0 }

/-- Whether a recipient accepts an ETH transfer of a given amount
(the boolean `success` of `payable(to).call{value: amount}("")`). -/
abbrev TransferOracle := Address → Nat → Bool

/-- An outbound ETH transfer: recipient and amount. -/
abbrev Transfer := Address × Nat

/-- `require(cond, msg)`: revert with `msg` unless `cond` holds. -/
def requireThat (p : Prop) [Decidable p] (msg : String) : Except String Unit :=
  if p then .ok () else .error msg

/-- `createGame(difficulty, expirationDuration)` with `msg.sender = sender`,
`msg.value = value`, `block.timestamp = now`.  Returns the new state and the
allocated game id.  The deposit of `msg.value` is recorded in `lockedFunds`. -/
def createGame (sender value now difficulty expirationDuration : Nat)
    (s : ContractState) : Except String (ContractState × Nat) := do
  requireThat (0 < value) "Wager must be greater than 0"
  requireThat (1 ≤ difficulty ∧ difficulty ≤ 10) "Difficulty must be between 1 and 10"
  requireThat (0 < expirationDuration) "Expiration duration must be greater than 0"
  requireThat (expirationDuration ≤ SEVEN_DAYS) "Expiration duration cannot exceed 7 days"
  let gameId := s.gameCounter + 1
  let g : Game :=
    { host := sender, player := 0, wager := value, difficulty := difficulty,
      status := .Pending, gameId := gameId, createdAt := now,
      expiresAt := now + expirationDuration }
  .ok ({ s with
          gameCounter := gameId
          games := updFn s.games gameId g
          playerGames := updFn s.playerGames sender (s.playerGames sender ++ [gameId])
          lockedFunds := updFn s.lockedFunds gameId (s.lockedFunds gameId + value) },
       gameId)

/-- `joinGame(gameId)` with `msg.sender = sender`, `msg.value = value`,
`block.timestamp = now`.  Sets the challenger, activates the game, pushes the
id to the joiner's history, and increments the joiner's `gamesPlayed`. -/
def joinGame (sender value now gameId : Nat) (s : ContractState) :
    Except String ContractState := do
  let game := s.games gameId
  requireThat (game.status = .Pending) "Game not available"
  requireThat (game.host ≠ sender) "Cannot join your own game"
  requireThat (value = game.wager) "Wager must match"
  requireThat (now < game.expiresAt) "Game has expired"
  .ok { s with
          games := updFn s.games gameId { game with player := sender, status := .Active }
          playerGames := updFn s.playerGames sender (s.playerGames sender ++ [gameId])
          playerStats := updFn s.playerStats sender
            { s.playerStats sender with gamesPlayed := (s.playerStats sender).gamesPlayed + 1 }
          lockedFunds := updFn s.lockedFunds gameId (s.lockedFunds gameId + value) }

/-- `cancelGame(gameId)` with `msg.sender = sender`.  Marks the game
Cancelled and refunds the host's wager; the refund `require(success)` makes a
rejected transfer revert the whole call. -/
def cancelGame (xfer : TransferOracle) (sender gameId : Nat) (s : ContractState) :
    Except String (ContractState × List Transfer) := do
  let game := s.games gameId
  requireThat (game.status = .Pending) "Game not cancellable"
  requireThat (game.host = sender) "Only host can cancel"
  requireThat (xfer game.host game.wager = true) "Refund failed"
  .ok ({ s with
          games := updFn s.games gameId { game with status := .Cancelled }
          lockedFunds := updFn s.lockedFunds gameId (s.lockedFunds gameId - game.wager) },
       [(game.host, game.wager)])

/-- `cancelExpiredGame(gameId)`: callable by anyone (`sender` is never
inspected); requires a Pending game whose deadline has passed, then refunds
the host exactly as `cancelGame` does. -/
def cancelExpiredGame (xfer : TransferOracle) (sender now gameId : Nat)
    (s : ContractState) : Except String (ContractState × List Transfer) := do
  let game := s.games gameId
  requireThat (game.status = .Pending) "Game not pending"
  requireThat (game.expiresAt ≤ now) "Game has not expired yet"
  requireThat (xfer game.host game.wager = true) "Refund failed"
  .ok ({ s with
          games := updFn s.games gameId { game with status := .Cancelled }
          lockedFunds := updFn s.lockedFunds gameId (s.lockedFunds gameId - game.wager) },
       [(game.host, game.wager)])

/-- `completeGame(gameId, winner)` with `msg.sender = sender`.  Guards, then
`totalPot = wager * 2`, `fee = totalPot * FEE_PERCENTAGE / 10000`,
`winnings = totalPot - fee`; increments the winner's `wins`/`totalWinnings`;
the source's `if (game.host == winner)` statement increments
`playerStats[game.host].gamesPlayed` in its then-branch and
`playerStats[game.player].gamesPlayed` in its else-branch (both branches
therefore increment the winner's record); sends the fee (when positive) and
the winnings, each guarded by `require(success)`. -/
def completeGame (xfer : TransferOracle) (sender gameId winner : Nat)
    (s : ContractState) : Except String (ContractState × List Transfer) := do
  let game := s.games gameId
  requireThat (game.status = .Active) "Game not active"
  requireThat (sender = game.host ∨ sender = game.player)
    "Only game participants can complete game"
  requireThat (winner = game.host ∨ winner = game.player) "Winner must be a player"
  let totalPot := game.wager * 2
  let fee := totalPot * FEE_PERCENTAGE / 10000
  let winnings := totalPot - fee
  let stats1 := updFn s.playerStats winner
    { s.playerStats winner with
        wins := (s.playerStats winner).wins + 1
        totalWinnings := (s.playerStats winner).totalWinnings + winnings }
  let stats2 :=
    if game.host = winner then
      updFn stats1 game.host
        { stats1 game.host with gamesPlayed := (stats1 game.host).gamesPlayed + 1 }
    else
      updFn stats1 game.player
        { stats1 game.player with gamesPlayed := (stats1 game.player).gamesPlayed + 1 }
  requireThat (0 < fee → xfer s.feeWallet fee = true) "Fee transfer failed"
  requireThat (xfer winner winnings = true) "Winnings transfer failed"
  .ok ({ s with
          games := updFn s.games gameId { game with status := .Completed }
          playerStats := stats2
          lockedFunds := updFn s.lockedFunds gameId (s.lockedFunds gameId - (fee + winnings)) },
       (if 0 < fee then [(s.feeWallet, fee)] else []) ++ [(winner, winnings)])

/-- EVM transactional semantics: a reverted (`error`) call leaves storage
exactly as it was; a successful one installs the new state. -/
def execTx {α : Type} (r : Except String (ContractState × α)) (s : ContractState) :
    ContractState :=
  match r with
  | .ok (s1, _) => s1
  | .error _ => s

/-- The transfers a call performed (`[]` when it reverted). -/
def transfersOf (r : Except String (ContractState × List Transfer)) : List Transfer :=
  match r with
  | .ok (_, ts) => ts
  | .error _ => []

/-- Whether a call succeeded. -/
def txSucceeds {α : Type} (r : Except String (ContractState × α)) : Bool :=
  match r with
  | .ok _ => true
  | .error _ => false

/-- One successful external call against the contract, by any caller, with
any `msg.value`, at any timestamp, under any transfer oracle. -/
inductive Step : ContractState → ContractState → Prop where
  | createStep {s s1 : ContractState} (sender value now difficulty dur gid : Nat) :
      createGame sender value now difficulty dur s = .ok (s1, gid) → Step s s1
  | joinStep {s s1 : ContractState} (sender value now gid : Nat) :
      joinGame sender value now gid s = .ok s1 → Step s s1
  | cancelStep {s s1 : ContractState} (xfer : TransferOracle) (sender gid : Nat)
      (ts : List Transfer) :
      cancelGame xfer sender gid s = .ok (s1, ts) → Step s s1
  | cancelExpiredStep {s s1 : ContractState} (xfer : TransferOracle) (sender now gid : Nat)
      (ts : List Transfer) :
      cancelExpiredGame xfer sender now gid s = .ok (s1, ts) → Step s s1
  | completeStep {s s1 : ContractState} (xfer : TransferOracle) (sender gid winner : Nat)
      (ts : List Transfer) :
      completeGame xfer sender gid winner s = .ok (s1, ts) → Step s s1

/-- States reachable from a freshly deployed contract by successful calls. -/
inductive Reachable : ContractState → Prop where
  | init (deployer feeW : Address) : Reachable (initState deployer feeW)
  | step {s s1 : ContractState} : Reachable s → Step s s1 → Reachable s1

/-- The escrow the spec requires a game to hold, as a function of its state. -/
def expectedLocked (g : Game) : Nat :=
  match g.status with
  | .Pending => g.wager
  | .Active => 2 * g.wager
  | .Completed => 0
  | .Cancelled => 0

/-- The settlement fee for a game of wager `w`:
`totalPot * FEE_PERCENTAGE / 10000` with `totalPot = w * 2`. -/
def feeOf (w : Nat) : Nat := w * 2 * FEE_PERCENTAGE / 10000

/-- The winner's payout for a game of wager `w`: `totalPot - fee`. -/
def payoutOf (w : Nat) : Nat := w * 2 - feeOf w

/-- Pointwise order on player records (all three counters). -/
def statsLE (a b : PlayerStats) : Prop :=
  a.wins ≤ b.wins ∧ a.totalWinnings ≤ b.totalWinnings ∧ a.gamesPlayed ≤ b.gamesPlayed

/-- The inductive invariant: locked funds match the spec's escrow table, and
ids beyond `gameCounter` have never been funded (zero wager, zero deadline,
never Active or Completed). -/
def StateInv (s : ContractState) : Prop :=
  (∀ gid, s.lockedFunds gid = expectedLocked (s.games gid)) ∧
  (∀ gid, s.gameCounter < gid →
      (s.games gid).wager = 0 ∧ (s.games gid).expiresAt = 0 ∧
      (s.games gid).status ≠ .Active ∧ (s.games gid).status ≠ .Completed)

/-- An oracle under which every recipient accepts its transfer. -/
def xferAll : TransferOracle := fun _ _ => true

/-- An oracle under which every transfer is rejected. -/
def xferNone : TransferOracle := fun _ _ => false

/-- Demo deployment: deployer `7`, fee wallet `9`. -/
def sDemo0 : ContractState := initState 7 9

/-- Demo: host `1` creates game `1` with wager `100`, difficulty `5`,
duration `3600`, at time `0`. -/
def sDemo1 : ContractState :=
  match createGame 1 100 0 5 3600 sDemo0 with
  | .ok (s, _) => s
  | .error _ => sDemo0

/-- Demo: challenger `2` joins game `1` with value `100` at time `10`. -/
def sDemo2 : ContractState :=
  match joinGame 2 100 10 1 sDemo1 with
  | .ok s => s
  | .error _ => sDemo1

/-- Demo: challenger `2` completes game `1` naming themselves winner. -/
def sDemo3 : ContractState :=
  match completeGame xferAll 2 1 2 sDemo2 with
  | .ok (s, _) => s
  | .error _ => sDemo2

/-! ## Match Coordinator relay (`src/server/index.js`)

The relay's routing never computes on message payloads, so the numeric
payload fields (JS numbers relayed verbatim) are modelled as integers. -/

/-- A connected socket's identity (`socket.id`). -/
abbrev SessionId := Nat

/-- The `{x, y, dx, dy, speed}` ball payload, relayed verbatim. -/
structure BallSnapshot where
  x : Int
  y : Int
  dx : Int
  dy : Int
  speed : Int
deriving DecidableEq, Repr

/-- The `{left, right}` score payload. -/
structure ScorePair where
  left : Nat
  right : Nat
deriving DecidableEq, Repr

/-- The in-play messages a client sends to the Coordinator. -/
inductive ClientEvent where
  | paddleMove (gameId : Nat) (y : Int)
  | ballUpdate (gameId : Nat) (ball : BallSnapshot)
  | scoreUpdate (gameId : Nat) (scores : ScorePair)
deriving DecidableEq, Repr

/-- The events the Coordinator emits back to clients. -/
inductive OutEvent where
  | opponentPaddle (y : Int)
  | ballSync (ball : BallSnapshot)
  | scoreSync (scores : ScorePair)
deriving DecidableEq, Repr

/-- socket.io `socket.to(room).emit(ev)`: deliver to every member of the room
except the sending socket. -/
def socketToRoom (sender : SessionId) (room : List SessionId) (ev : OutEvent) :
    List (SessionId × OutEvent) :=
  (room.filter (fun m => m ≠ sender)).map (fun m => (m, ev))

/-- socket.io `io.to(room).emit(ev)`: deliver to every member of the room,
the sender included when it is a member. -/
def ioToRoom (room : List SessionId) (ev : OutEvent) : List (SessionId × OutEvent) :=
  room.map (fun m => (m, ev))

/-- The relay's in-play handlers: `paddle-move` and `ball-update` use
`socket.to(...)` (others only), `score-update` uses `io.to(...)` (everyone).
`room` is the membership of the `game-gameId` room when the event fires. -/
def relayDeliveries (sender : SessionId) (room : List SessionId) (ev : ClientEvent) :
    List (SessionId × OutEvent) :=
  match ev with
  | .paddleMove _ y => socketToRoom sender room (.opponentPaddle y)
  | .ballUpdate _ ball => socketToRoom sender room (.ballSync ball)
  | .scoreUpdate _ scores => ioToRoom room (.scoreSync scores)

/-! ## Match Client completion logic (the Game component)

The client-side handler around the ledger's `completeGame` call, and the
terminal-score branches of `updateBall` that choose whom to name as winner. -/

/-- The observable client reaction to a completion submission's outcome:
whether an alert is shown (and its text), and the resulting
`gameOver` / `completing` / `winner` component state. -/
structure CompletionReaction where
  alertMessage : Option String
  gameOverFlag : Bool
  completingFlag : Bool
  winnerShown : Option String
deriving DecidableEq, Repr

/-- `handleCompleteGame`'s wagered-mode outcome handling: `setCompleting(true)`
and `setGameOver(true)` precede the call; on success `setWinner(winnerAddress)`;
in the catch branch, for every error whatsoever,
`alert(error.message || 'Failed to complete game. Please try again.')` followed
by `setGameOver(false)` and `setCompleting(false)`. -/
def handleCompleteGameReaction (winnerAddress : String)
    (submission : Except String Unit) : CompletionReaction :=
  match submission with
  | .ok _ =>
      { alertMessage := none, gameOverFlag := true, completingFlag := true,
        winnerShown := some winnerAddress }
  | .error msg =>
      { alertMessage := some (if msg = "" then "Failed to complete game. Please try again." else msg),
        gameOverFlag := false, completingFlag := false, winnerShown := none }

/-- The on-chain match data the client holds (`gameData`), as far as the
terminal-score branches consult it: the host and challenger addresses as
strings (empty string models a falsy/unset field). -/
structure ClientGameData where
  host : String
  player : String
deriving DecidableEq, Repr

/-- Which side of the local board scored / reached the terminal score. -/
inductive BoardSide where
  | left
  | right
deriving DecidableEq, Repr

/-- The argument the terminal branches pass to `handleCompleteGame`: the
practice path passes a side label, the wagered path an address string. -/
inductive WinnerArg where
  | sideLabel (s : BoardSide)
  | address (a : String)
deriving DecidableEq, Repr

/-- Canvas width in the client simulation. -/
def CANVAS_WIDTH : Int := 800

/-- Ball diameter in the client simulation. -/
def BALL_SIZE : Int := 10

/-- Which player scored, from the ball's x position in `updateBall`:
past the left edge (`x < -BALL_SIZE`) the right player scores; past the
right edge (`x > CANVAS_WIDTH + BALL_SIZE`) the left player scores. -/
def scorerOfBallX (x : Int) : Option BoardSide :=
  if x < -BALL_SIZE then some .right
  else if CANVAS_WIDTH + BALL_SIZE < x then some .left
  else none

/-- The winner argument submitted when `side`'s score reaches 10, from the
terminal branches of `updateBall`: practice mode passes the side label;
otherwise, when the right side wins, `gameData && gameData.player` gates a
submission of `gameData.player`, and when the left side wins,
`gameData && gameData.host` gates a submission of `gameData.host`.
`none` means no submission happens. -/
def terminalSubmission (practiceMode : Bool) (gameData : Option ClientGameData)
    (side : BoardSide) : Option WinnerArg :=
  match side with
  | .right =>
      if practiceMode then some (.sideLabel .right)
      else
        match gameData with
        | some gd => if gd.player = "" then none else some (.address gd.player)
        | none => none
  | .left =>
      if practiceMode then some (.sideLabel .left)
      else
        match gameData with
        | some gd => if gd.host = "" then none else some (.address gd.host)
        | none => none

/-- One scoring event in `updateBall`: increment the scorer's tally and, when
the new tally reaches 10, produce the completion submission (otherwise the
ball is merely reset and nothing is submitted). -/
def scoreStepAction (practiceMode : Bool) (gameData : Option ClientGameData)
    (prev : Nat × Nat) (scorer : BoardSide) : (Nat × Nat) × Option WinnerArg :=
  match scorer with
  | .right =>
      let n := prev.2 + 1
      ((prev.1, n), if 10 ≤ n then terminalSubmission practiceMode gameData .right else none)
  | .left =>
      let n := prev.1 + 1
      ((n, prev.2), if 10 ≤ n then terminalSubmission practiceMode gameData .left else none)

/-! ## Basic lemmas about the embedded operations -/

theorem requireThat_bind {α : Type} (p : Prop) [Decidable p] (msg : String)
    (k : Unit → Except String α) :
    (requireThat p msg >>= k) = if p then k () else .error msg := by
  by_cases h : p
  · simp only [requireThat, if_pos h]; rfl
  · simp only [requireThat, if_neg h]; rfl

theorem feeOf_le (w : Nat) : feeOf w ≤ w * 2 := by
  have h1 : w * 2 * FEE_PERCENTAGE / 10000 ≤ w * 2 * 10000 / 10000 :=
    Nat.div_le_div_right (by unfold FEE_PERCENTAGE; omega)
  rw [Nat.mul_div_cancel _ (by norm_num)] at h1
  exact h1

/-- Everything a successful `createGame` tells us. -/
theorem createGame_ok {sender value now d dur : Nat} {s s1 : ContractState} {gid : Nat}
    (h : createGame sender value now d dur s = .ok (s1, gid)) :
    0 < value ∧ (1 ≤ d ∧ d ≤ 10) ∧ 0 < dur ∧ dur ≤ SEVEN_DAYS ∧
    gid = s.gameCounter + 1 ∧
    s1 = { s with
            gameCounter := s.gameCounter + 1
            games := updFn s.games (s.gameCounter + 1)
              { host := sender, player := 0, wager := value, difficulty := d,
                status := .Pending, gameId := s.gameCounter + 1, createdAt := now,
                expiresAt := now + dur }
            playerGames := updFn s.playerGames sender
              (s.playerGames sender ++ [s.gameCounter + 1])
            lockedFunds := updFn s.lockedFunds (s.gameCounter + 1)
              (s.lockedFunds (s.gameCounter + 1) + value) } := by
  simp only [createGame, requireThat_bind] at h
  split_ifs at h with h1 h2 h3 h4
  simp only [Except.ok.injEq, Prod.mk.injEq] at h
  exact ⟨h1, h2, h3, h4, h.2.symm, h.1.symm⟩

/-- Everything a successful `joinGame` tells us. -/
theorem joinGame_ok {sender value now gid : Nat} {s s1 : ContractState}
    (h : joinGame sender value now gid s = .ok s1) :
    (s.games gid).status = .Pending ∧ (s.games gid).host ≠ sender ∧
    value = (s.games gid).wager ∧ now < (s.games gid).expiresAt ∧
    s1 = { s with
            games := updFn s.games gid
              { s.games gid with player := sender, status := .Active }
            playerGames := updFn s.playerGames sender (s.playerGames sender ++ [gid])
            playerStats := updFn s.playerStats sender
              { s.playerStats sender with
                  gamesPlayed := (s.playerStats sender).gamesPlayed + 1 }
            lockedFunds := updFn s.lockedFunds gid (s.lockedFunds gid + value) } := by
  simp only [joinGame, requireThat_bind] at h
  split_ifs at h with h1 h2 h3 h4
  simp only [Except.ok.injEq] at h
  exact ⟨h1, h2, h3, h4, h.symm⟩

/-- Everything a successful `cancelGame` tells us. -/
theorem cancelGame_ok {xfer : TransferOracle} {sender gid : Nat}
    {s s1 : ContractState} {ts : List Transfer}
    (h : cancelGame xfer sender gid s = .ok (s1, ts)) :
    (s.games gid).status = .Pending ∧ (s.games gid).host = sender ∧
    xfer (s.games gid).host (s.games gid).wager = true ∧
    ts = [((s.games gid).host, (s.games gid).wager)] ∧
    s1 = { s with
            games := updFn s.games gid { s.games gid with status := .Cancelled }
            lockedFunds := updFn s.lockedFunds gid
              (s.lockedFunds gid - (s.games gid).wager) } := by
  simp only [cancelGame, requireThat_bind] at h
  split_ifs at h with h1 h2 h3
  simp only [Except.ok.injEq, Prod.mk.injEq] at h
  exact ⟨h1, h2, h3, h.2.symm, h.1.symm⟩

/-- Everything a successful `cancelExpiredGame` tells us. -/
theorem cancelExpiredGame_ok {xfer : TransferOracle} {sender now gid : Nat}
    {s s1 : ContractState} {ts : List Transfer}
    (h : cancelExpiredGame xfer sender now gid s = .ok (s1, ts)) :
    (s.games gid).status = .Pending ∧ (s.games gid).expiresAt ≤ now ∧
    xfer (s.games gid).host (s.games gid).wager = true ∧
    ts = [((s.games gid).host, (s.games gid).wager)] ∧
    s1 = { s with
            games := updFn s.games gid { s.games gid with status := .Cancelled }
            lockedFunds := updFn s.lockedFunds gid
              (s.lockedFunds gid - (s.games gid).wager) } := by
  simp only [cancelExpiredGame, requireThat_bind] at h
  split_ifs at h with h1 h2 h3
  simp only [Except.ok.injEq, Prod.mk.injEq] at h
  exact ⟨h1, h2, h3, h.2.symm, h.1.symm⟩

/-- Everything a successful `completeGame` tells us. -/
theorem completeGame_ok {xfer : TransferOracle} {sender gid winner : Nat}
    {s s1 : ContractState} {ts : List Transfer}
    (h : completeGame xfer sender gid winner s = .ok (s1, ts)) :
    (s.games gid).status = .Active ∧
    (sender = (s.games gid).host ∨ sender = (s.games gid).player) ∧
    (winner = (s.games gid).host ∨ winner = (s.games gid).player) ∧
    (0 < feeOf (s.games gid).wager → xfer s.feeWallet (feeOf (s.games gid).wager) = true) ∧
    xfer winner (payoutOf (s.games gid).wager) = true ∧
    ts = (if 0 < feeOf (s.games gid).wager then [(s.feeWallet, feeOf (s.games gid).wager)] else [])
          ++ [(winner, payoutOf (s.games gid).wager)] ∧
    s1 = { s with
            games := updFn s.games gid { s.games gid with status := .Completed }
            playerStats :=
              (let stats1 := updFn s.playerStats winner
                { s.playerStats winner with
                    wins := (s.playerStats winner).wins + 1
                    totalWinnings := (s.playerStats winner).totalWinnings
                      + payoutOf (s.games gid).wager };
               if (s.games gid).host = winner then
                 updFn stats1 (s.games gid).host
                   { stats1 (s.games gid).host with
                       gamesPlayed := (stats1 (s.games gid).host).gamesPlayed + 1 }
               else
                 updFn stats1 (s.games gid).player
                   { stats1 (s.games gid).player with
                       gamesPlayed := (stats1 (s.games gid).player).gamesPlayed + 1 })
            lockedFunds := updFn s.lockedFunds gid
              (s.lockedFunds gid
                - (feeOf (s.games gid).wager + payoutOf (s.games gid).wager)) } := by
  simp only [completeGame, requireThat_bind, feeOf, payoutOf] at h ⊢
  by_cases h1 : (s.games gid).status = .Active
  · rw [if_pos h1] at h
    by_cases h2 : sender = (s.games gid).host ∨ sender = (s.games gid).player
    · rw [if_pos h2] at h
      by_cases h3 : winner = (s.games gid).host ∨ winner = (s.games gid).player
      · rw [if_pos h3] at h
        by_cases h4 : 0 < (s.games gid).wager * 2 * FEE_PERCENTAGE / 10000 →
            xfer s.feeWallet ((s.games gid).wager * 2 * FEE_PERCENTAGE / 10000) = true
        · rw [if_pos h4] at h
          by_cases h5 : xfer winner
              ((s.games gid).wager * 2 - (s.games gid).wager * 2 * FEE_PERCENTAGE / 10000) = true
          · rw [if_pos h5] at h
            simp only [Except.ok.injEq, Prod.mk.injEq] at h
            exact ⟨h1, h2, h3, h4, h5, h.2.symm, h.1.symm⟩
          · rw [if_neg h5] at h; exact Except.noConfusion h
        · rw [if_neg h4] at h; exact Except.noConfusion h
      · rw [if_neg h3] at h; exact Except.noConfusion h
    · rw [if_neg h2] at h; exact Except.noConfusion h
  · rw [if_neg h1] at h; exact Except.noConfusion h

/-! ## The ledger invariant -/

theorem stateInv_init (deployer feeW : Address) : StateInv (initState deployer feeW) := by
  refine ⟨fun gid => rfl, fun gid _ => ⟨rfl, rfl, ?_, ?_⟩⟩ <;>
    intro hc <;> exact GameStatus.noConfusion hc

theorem stateInv_step {s s1 : ContractState} (hinv : StateInv s) (hstep : Step s s1) :
    StateInv s1 := by
  obtain ⟨inv1, inv2⟩ := hinv
  cases hstep with
  | createStep sender value now d dur gid h =>
    obtain ⟨hv, hd, hdur1, hdur2, hgid, hs1⟩ := createGame_ok h
    subst hs1
    refine ⟨?_, ?_⟩
    · intro g
      by_cases hg : g = s.gameCounter + 1
      · subst hg
        have hw0 : (s.games (s.gameCounter + 1)).wager = 0 :=
          (inv2 _ (Nat.lt_succ_self _)).1
        have hl0 : s.lockedFunds (s.gameCounter + 1) = 0 := by
          rw [inv1 (s.gameCounter + 1)]
          unfold expectedLocked
          cases hst : (s.games (s.gameCounter + 1)).status <;> simp [hw0]
        simp [updFn, expectedLocked, hl0]
      · simp only [updFn, if_neg hg]
        exact inv1 g
    · intro g hgt
      simp only at hgt
      have hg : g ≠ s.gameCounter + 1 := by omega
      simp only [updFn]
      rw [if_neg hg]
      exact inv2 g (by omega)
  | joinStep sender value now gid h =>
    obtain ⟨hpend, hhost, hval, hexp, hs1⟩ := joinGame_ok h
    subst hs1
    refine ⟨?_, ?_⟩
    · intro g
      by_cases hg : g = gid
      · subst hg
        have hl : s.lockedFunds g = (s.games g).wager := by
          rw [inv1 g]; simp [expectedLocked, hpend]
        simp [updFn, expectedLocked]
        omega
      · simp only [updFn, if_neg hg]
        exact inv1 g
    · intro g hgt
      simp only at hgt
      by_cases hg : g = gid
      · subst hg
        have hz := (inv2 g hgt).2.1
        omega
      · simp only [updFn]
        rw [if_neg hg]
        exact inv2 g hgt
  | cancelStep xfer sender gid ts h =>
    obtain ⟨hpend, hhost, hxfer, hts, hs1⟩ := cancelGame_ok h
    subst hs1
    refine ⟨?_, ?_⟩
    · intro g
      by_cases hg : g = gid
      · subst hg
        have hl : s.lockedFunds g = (s.games g).wager := by
          rw [inv1 g]; simp [expectedLocked, hpend]
        simp [updFn, expectedLocked]
        omega
      · simp only [updFn, if_neg hg]
        exact inv1 g
    · intro g hgt
      simp only at hgt
      by_cases hg : g = gid
      · subst hg
        obtain ⟨hz1, hz2, _, _⟩ := inv2 g hgt
        simp [updFn, hz1, hz2]
      · simp only [updFn]
        rw [if_neg hg]
        exact inv2 g hgt
  | cancelExpiredStep xfer sender now gid ts h =>
    obtain ⟨hpend, hexp, hxfer, hts, hs1⟩ := cancelExpiredGame_ok h
    subst hs1
    refine ⟨?_, ?_⟩
    · intro g
      by_cases hg : g = gid
      · subst hg
        have hl : s.lockedFunds g = (s.games g).wager := by
          rw [inv1 g]; simp [expectedLocked, hpend]
        simp [updFn, expectedLocked]
        omega
      · simp only [updFn, if_neg hg]
        exact inv1 g
    · intro g hgt
      simp only at hgt
      by_cases hg : g = gid
      · subst hg
        obtain ⟨hz1, hz2, _, _⟩ := inv2 g hgt
        simp [updFn, hz1, hz2]
      · simp only [updFn]
        rw [if_neg hg]
        exact inv2 g hgt
  | completeStep xfer sender gid winner ts h =>
    obtain ⟨hact, hsend, hwin, hfeeX, hwinX, hts, hs1⟩ := completeGame_ok h
    subst hs1
    refine ⟨?_, ?_⟩
    · intro g
      by_cases hg : g = gid
      · subst hg
        have hl : s.lockedFunds g = 2 * (s.games g).wager := by
          rw [inv1 g]; simp [expectedLocked, hact]
        have hfle := feeOf_le (s.games g).wager
        simp [updFn, expectedLocked, payoutOf]
        omega
      · simp only [updFn, if_neg hg]
        exact inv1 g
    · intro g hgt
      simp only at hgt
      by_cases hg : g = gid
      · subst hg
        exact absurd hact (inv2 g hgt).2.2.1
      · simp only [updFn]
        rw [if_neg hg]
        exact inv2 g hgt

theorem reachable_inv {s : ContractState} (h : Reachable s) : StateInv s := by
  induction h with
  | init deployer feeW => exact stateInv_init deployer feeW
  | step hr hstep ih => exact stateInv_step ih hstep

theorem reachable_sDemo1 : Reachable sDemo1 :=
  Reachable.step (Reachable.init 7 9) (Step.createStep 1 100 0 5 3600 1 rfl)

theorem reachable_sDemo2 : Reachable sDemo2 :=
  Reachable.step reachable_sDemo1 (Step.joinStep 2 100 10 1 rfl)

theorem reachable_sDemo3 : Reachable sDemo3 :=
  Reachable.step reachable_sDemo2 (Step.completeStep xferAll 2 1 2 [(9, 2), (2, 198)] rfl)

/-! ## Claim theorems -/

/-- C1 (escrow conservation): in every reachable ledger state, the funds held
in escrow for every game id equal its wager while Pending, twice its wager
while Active, and zero once Completed or Cancelled (`expectedLocked`); in
particular the locked amount never exceeds `2 × wager` (and, being a `Nat`,
is never negative). -/
theorem escrow_conservation (s : ContractState) (h : Reachable s) (gid : Nat) :
    s.lockedFunds gid = expectedLocked (s.games gid) ∧
    s.lockedFunds gid ≤ 2 * (s.games gid).wager := by
  have hi := (reachable_inv h).1 gid
  refine ⟨hi, ?_⟩
  rw [hi]
  unfold expectedLocked
  cases hst : (s.games gid).status <;> simp <;> omega

/-- Witness for C1 at the concrete reachable state `sDemo2` (game `1`
Active with wager `100`: `200` locked). -/
theorem escrow_conservation_witness :
    sDemo2.lockedFunds 1 = expectedLocked (sDemo2.games 1) ∧
    sDemo2.lockedFunds 1 ≤ 2 * (sDemo2.games 1).wager :=
  escrow_conservation sDemo2 reachable_sDemo2 1

/-- C2 (no double settlement, terminal states): once a game is Completed or
Cancelled, every mutating operation on it reverts — `joinGame`, `cancelGame`,
`cancelExpiredGame`, and `completeGame` (the latter with the not-active
condition); and a successful `completeGame` leaves the game Completed, so
`completeGame` succeeds at most once per game and any later `completeGame`
fails with "Game not active". -/
theorem no_double_settlement :
    (∀ (s : ContractState) (gid : Nat),
        ((s.games gid).status = .Completed ∨ (s.games gid).status = .Cancelled) →
        (∀ sender value now, joinGame sender value now gid s = .error "Game not available") ∧
        (∀ xfer sender, cancelGame xfer sender gid s = .error "Game not cancellable") ∧
        (∀ xfer sender now,
            cancelExpiredGame xfer sender now gid s = .error "Game not pending") ∧
        (∀ xfer sender winner,
            completeGame xfer sender gid winner s = .error "Game not active")) ∧
    (∀ (xfer : TransferOracle) (sender gid winner : Nat) (s s1 : ContractState)
        (ts : List Transfer),
        completeGame xfer sender gid winner s = .ok (s1, ts) →
        (s1.games gid).status = .Completed) := by
  constructor
  · intro s gid hterm
    have hnp : (s.games gid).status ≠ .Pending := by
      rcases hterm with h | h <;> rw [h] <;> intro hc <;> exact GameStatus.noConfusion hc
    have hna : (s.games gid).status ≠ .Active := by
      rcases hterm with h | h <;> rw [h] <;> intro hc <;> exact GameStatus.noConfusion hc
    refine ⟨?_, ?_, ?_, ?_⟩
    · intro sender value now
      simp only [joinGame, requireThat_bind]
      rw [if_neg hnp]
    · intro xfer sender
      simp only [cancelGame, requireThat_bind]
      rw [if_neg hnp]
    · intro xfer sender now
      simp only [cancelExpiredGame, requireThat_bind]
      rw [if_neg hnp]
    · intro xfer sender winner
      simp only [completeGame, requireThat_bind]
      rw [if_neg hna]
  · intro xfer sender gid winner s s1 ts h
    obtain ⟨_, _, _, _, _, _, hs1⟩ := completeGame_ok h
    subst hs1
    simp [updFn]

/-- Witness for C2: after the settled demo state `sDemo3`, a second
`completeGame` on game `1` fails with the not-active condition. -/
theorem no_double_settlement_witness :
    completeGame xferAll 1 1 2 sDemo3 = .error "Game not active" :=
  (no_double_settlement.1 sDemo3 1 (Or.inl rfl)).2.2.2 xferAll 1 2

/-- C3 (fee exactness): every successful `completeGame` on a game of wager
`w` performs exactly a fee transfer of `feeOf w = (w * 2) * 100 / 10000` to
the fee wallet (omitted when zero) and a payout transfer of
`payoutOf w = w * 2 - feeOf w` to the named winner, and
`payout + fee = 2 × w` exactly. -/
theorem completion_fee_exact (xfer : TransferOracle) (sender gid winner : Nat)
    (s s1 : ContractState) (ts : List Transfer)
    (h : completeGame xfer sender gid winner s = .ok (s1, ts)) :
    ts = (if 0 < feeOf (s.games gid).wager
          then [(s.feeWallet, feeOf (s.games gid).wager)] else [])
         ++ [(winner, payoutOf (s.games gid).wager)] ∧
    payoutOf (s.games gid).wager + feeOf (s.games gid).wager = (s.games gid).wager * 2 := by
  obtain ⟨_, _, _, _, _, hts, _⟩ := completeGame_ok h
  refine ⟨hts, ?_⟩
  have := feeOf_le (s.games gid).wager
  unfold payoutOf
  omega

/-- Witness for C3: with the fixed 1% fee rate and wager `100`, the winner
receives `198` and the fee wallet `2`, summing to the pot `200`. -/
theorem completion_fee_exact_witness :
    ([((9 : Nat), (2 : Nat)), (2, 198)] =
      (if 0 < feeOf 100 then [(9, feeOf 100)] else []) ++ [(2, payoutOf 100)]) ∧
    payoutOf 100 + feeOf 100 = 100 * 2 :=
  completion_fee_exact xferAll 2 1 2 sDemo2 sDemo3 [(9, 2), (2, 198)] rfl

/-- C4 (divergence witness): in the concrete settled match (host `1`,
challenger `2`, wager `100`, challenger wins), `completeGame` increments the
winner's `wins` and `totalWinnings` as the claim states, but the loser's
(host's) `gamesPlayed` stays `0` while the *winner's* `gamesPlayed` is the
counter that gets incremented — the source's `if (game.host == winner)`
statement increments the winner's record in both branches, contradicting the
claim that the loser's `matchesPlayed` increases by one. -/
theorem complete_updates_winner_stats_not_loser :
    completeGame xferAll 2 1 2 sDemo2 = .ok (sDemo3, [(9, 2), (2, 198)]) ∧
    (sDemo2.playerStats 2).wins = 0 ∧ (sDemo3.playerStats 2).wins = 1 ∧
    (sDemo2.playerStats 2).totalWinnings = 0 ∧
    (sDemo3.playerStats 2).totalWinnings = 198 ∧
    (sDemo2.playerStats 1).gamesPlayed = 0 ∧
    (sDemo3.playerStats 1).gamesPlayed = 0 ∧
    (sDemo2.playerStats 2).gamesPlayed = 1 ∧
    (sDemo3.playerStats 2).gamesPlayed = 2 :=
  ⟨rfl, rfl, rfl, rfl, rfl, rfl, rfl, rfl, rfl⟩

/-- C5 counterexample: a successful `joinGame` — an operation other than a
match reaching Completed — changes a player's counters: the joiner's
`gamesPlayed` goes from `0` to `1`, refuting the claim that create, join,
cancel and cancelExpired leave every player's counters unchanged. -/
theorem join_updates_counters_counterexample :
    joinGame 2 100 10 1 sDemo1 = .ok sDemo2 ∧
    (sDemo1.playerStats 2).gamesPlayed = 0 ∧
    (sDemo2.playerStats 2).gamesPlayed = 1 :=
  ⟨rfl, rfl, rfl⟩

/-- C5 amended: `createGame`, `cancelGame` and `cancelExpiredGame` leave the
entire `playerStats` mapping unchanged; a successful `joinGame` leaves every
player other than the joiner unchanged and, for the joiner, leaves `wins`
and `totalWinnings` unchanged while incrementing `gamesPlayed` by exactly 1;
and across every successful ledger operation all three counters are
monotonically non-decreasing for every player. -/
theorem stats_frame_condition :
    (∀ sender value now d dur s s1 gid,
        createGame sender value now d dur s = .ok (s1, gid) →
        s1.playerStats = s.playerStats) ∧
    (∀ (xfer : TransferOracle) sender gid s s1 ts,
        cancelGame xfer sender gid s = .ok (s1, ts) →
        s1.playerStats = s.playerStats) ∧
    (∀ (xfer : TransferOracle) sender now gid s s1 ts,
        cancelExpiredGame xfer sender now gid s = .ok (s1, ts) →
        s1.playerStats = s.playerStats) ∧
    (∀ sender value now gid s s1,
        joinGame sender value now gid s = .ok s1 →
        (∀ a, a ≠ sender → s1.playerStats a = s.playerStats a) ∧
        (s1.playerStats sender).wins = (s.playerStats sender).wins ∧
        (s1.playerStats sender).totalWinnings = (s.playerStats sender).totalWinnings ∧
        (s1.playerStats sender).gamesPlayed = (s.playerStats sender).gamesPlayed + 1) ∧
    (∀ (s s1 : ContractState), Step s s1 →
        ∀ a, statsLE (s.playerStats a) (s1.playerStats a)) := by
  have hmono : ∀ (s s1 : ContractState), Step s s1 →
      ∀ a, statsLE (s.playerStats a) (s1.playerStats a) := by
    intro s s1 hstep a
    cases hstep with
    | createStep sender value now d dur gid h =>
      obtain ⟨_, _, _, _, _, hs1⟩ := createGame_ok h
      subst hs1
      exact ⟨Nat.le_refl _, Nat.le_refl _, Nat.le_refl _⟩
    | joinStep sender value now gid h =>
      obtain ⟨_, _, _, _, hs1⟩ := joinGame_ok h
      subst hs1
      by_cases ha : a = sender
      · subst ha
        simp only [statsLE, updFn, if_pos rfl]
        exact ⟨Nat.le_refl _, Nat.le_refl _, Nat.le_succ _⟩
      · simp only [statsLE, updFn, if_neg ha]
        exact ⟨Nat.le_refl _, Nat.le_refl _, Nat.le_refl _⟩
    | cancelStep xfer sender gid ts h =>
      obtain ⟨_, _, _, _, hs1⟩ := cancelGame_ok h
      subst hs1
      exact ⟨Nat.le_refl _, Nat.le_refl _, Nat.le_refl _⟩
    | cancelExpiredStep xfer sender now gid ts h =>
      obtain ⟨_, _, _, _, hs1⟩ := cancelExpiredGame_ok h
      subst hs1
      exact ⟨Nat.le_refl _, Nat.le_refl _, Nat.le_refl _⟩
    | completeStep xfer sender gid winner ts h =>
      obtain ⟨hact, hsend, hwin, hfx, hwx, hts, hs1⟩ := completeGame_ok h
      subst hs1
      by_cases hw : (s.games gid).host = winner
      · by_cases ha2 : a = winner <;> simp [statsLE, updFn, hw, ha2]
      · have hwp : (s.games gid).player = winner :=
          (hwin.resolve_left fun hc => hw hc.symm).symm
        by_cases ha2 : a = winner <;> simp [statsLE, updFn, hw, ha2, hwp]
  refine ⟨?_, ?_, ?_, ?_, hmono⟩
  · intro sender value now d dur s s1 gid h
    obtain ⟨_, _, _, _, _, hs1⟩ := createGame_ok h
    subst hs1
    rfl
  · intro xfer sender gid s s1 ts h
    obtain ⟨_, _, _, _, hs1⟩ := cancelGame_ok h
    subst hs1
    rfl
  · intro xfer sender now gid s s1 ts h
    obtain ⟨_, _, _, _, hs1⟩ := cancelExpiredGame_ok h
    subst hs1
    rfl
  · intro sender value now gid s s1 h
    obtain ⟨_, _, _, _, hs1⟩ := joinGame_ok h
    subst hs1
    refine ⟨?_, ?_, ?_, ?_⟩
    · intro a ha
      simp only [updFn, if_neg ha]
    · simp [updFn]
    · simp [updFn]
    · simp [updFn]

/-- Witness for C5 (amended) at the concrete demo join: player `2`'s
`gamesPlayed` rises from `0` to `1`, wins and winnings untouched, and the
bystander host `1` is untouched. -/
theorem stats_frame_condition_witness :
    sDemo2.playerStats 1 = sDemo1.playerStats 1 ∧
    (sDemo2.playerStats 2).wins = (sDemo1.playerStats 2).wins ∧
    (sDemo2.playerStats 2).totalWinnings = (sDemo1.playerStats 2).totalWinnings ∧
    (sDemo2.playerStats 2).gamesPlayed = (sDemo1.playerStats 2).gamesPlayed + 1 := by
  have h := stats_frame_condition.2.2.2.1 2 100 10 1 sDemo1 sDemo2 rfl
  exact ⟨h.1 1 (by decide), h.2.1, h.2.2.1, h.2.2.2⟩

/-- C6 (settlement atomicity): whenever a required fund transfer is rejected
— the refund in `cancelGame` / `cancelExpiredGame`, or the fee or winnings
transfer in `completeGame` — the whole call reverts with the corresponding
failure message and the recorded state is exactly the pre-state (`execTx`
keeps `s`): no partial payout, no state transition, no stats change.
Conversely, a call that did succeed had every one of its transfers accepted. -/
theorem transfer_failure_reverts :
    (∀ (xfer : TransferOracle) (sender gid : Nat) (s : ContractState),
        (s.games gid).status = .Pending → (s.games gid).host = sender →
        xfer sender (s.games gid).wager = false →
        cancelGame xfer sender gid s = .error "Refund failed" ∧
        execTx (cancelGame xfer sender gid s) s = s) ∧
    (∀ (xfer : TransferOracle) (sender now gid : Nat) (s : ContractState),
        (s.games gid).status = .Pending → (s.games gid).expiresAt ≤ now →
        xfer (s.games gid).host (s.games gid).wager = false →
        cancelExpiredGame xfer sender now gid s = .error "Refund failed" ∧
        execTx (cancelExpiredGame xfer sender now gid s) s = s) ∧
    (∀ (xfer : TransferOracle) (sender gid winner : Nat) (s : ContractState),
        (s.games gid).status = .Active →
        (sender = (s.games gid).host ∨ sender = (s.games gid).player) →
        (winner = (s.games gid).host ∨ winner = (s.games gid).player) →
        0 < feeOf (s.games gid).wager →
        xfer s.feeWallet (feeOf (s.games gid).wager) = false →
        completeGame xfer sender gid winner s = .error "Fee transfer failed" ∧
        execTx (completeGame xfer sender gid winner s) s = s) ∧
    (∀ (xfer : TransferOracle) (sender gid winner : Nat) (s : ContractState),
        (s.games gid).status = .Active →
        (sender = (s.games gid).host ∨ sender = (s.games gid).player) →
        (winner = (s.games gid).host ∨ winner = (s.games gid).player) →
        xfer winner (payoutOf (s.games gid).wager) = false →
        completeGame xfer sender gid winner s = .error "Winnings transfer failed" ∨
        completeGame xfer sender gid winner s = .error "Fee transfer failed") ∧
    (∀ (xfer : TransferOracle) (sender gid : Nat) (s s1 : ContractState)
        (ts : List Transfer),
        cancelGame xfer sender gid s = .ok (s1, ts) →
        xfer (s.games gid).host (s.games gid).wager = true) ∧
    (∀ (xfer : TransferOracle) (sender now gid : Nat) (s s1 : ContractState)
        (ts : List Transfer),
        cancelExpiredGame xfer sender now gid s = .ok (s1, ts) →
        xfer (s.games gid).host (s.games gid).wager = true) ∧
    (∀ (xfer : TransferOracle) (sender gid winner : Nat) (s s1 : ContractState)
        (ts : List Transfer),
        completeGame xfer sender gid winner s = .ok (s1, ts) →
        (0 < feeOf (s.games gid).wager →
            xfer s.feeWallet (feeOf (s.games gid).wager) = true) ∧
        xfer winner (payoutOf (s.games gid).wager) = true) := by
  refine ⟨?_, ?_, ?_, ?_, ?_, ?_, ?_⟩
  · intro xfer sender gid s h1 h2 hx
    have heq : cancelGame xfer sender gid s = .error "Refund failed" := by
      simp only [cancelGame, requireThat_bind]
      rw [if_pos h1, if_pos h2, if_neg (by simp [h2, hx])]
    exact ⟨heq, by rw [heq]; rfl⟩
  · intro xfer sender now gid s h1 h2 hx
    have heq : cancelExpiredGame xfer sender now gid s = .error "Refund failed" := by
      simp only [cancelExpiredGame, requireThat_bind]
      rw [if_pos h1, if_pos h2, if_neg (by simp [hx])]
    exact ⟨heq, by rw [heq]; rfl⟩
  · intro xfer sender gid winner s h1 h2 h3 hpos hx
    have heq : completeGame xfer sender gid winner s = .error "Fee transfer failed" := by
      simp only [completeGame, requireThat_bind]
      rw [if_pos h1, if_pos h2, if_pos h3,
        if_neg (show ¬(0 < (s.games gid).wager * 2 * FEE_PERCENTAGE / 10000 →
          xfer s.feeWallet ((s.games gid).wager * 2 * FEE_PERCENTAGE / 10000) = true) from ?_)]
      intro hc
      have := hc (by simpa [feeOf] using hpos)
      rw [show xfer s.feeWallet ((s.games gid).wager * 2 * FEE_PERCENTAGE / 10000) = false by
        simpa [feeOf] using hx] at this
      exact Bool.noConfusion this
    exact ⟨heq, by rw [heq]; rfl⟩
  · intro xfer sender gid winner s h1 h2 h3 hx
    by_cases hfee : 0 < (s.games gid).wager * 2 * FEE_PERCENTAGE / 10000 →
        xfer s.feeWallet ((s.games gid).wager * 2 * FEE_PERCENTAGE / 10000) = true
    · left
      simp only [completeGame, requireThat_bind]
      rw [if_pos h1, if_pos h2, if_pos h3, if_pos hfee, if_neg (by simp [payoutOf, feeOf] at hx ⊢; exact hx)]
    · right
      simp only [completeGame, requireThat_bind]
      rw [if_pos h1, if_pos h2, if_pos h3, if_neg hfee]
  · intro xfer sender gid s s1 ts h
    have h' := (cancelGame_ok h).2.2.1
    exact h'
  · intro xfer sender now gid s s1 ts h
    exact (cancelExpiredGame_ok h).2.2.1
  · intro xfer sender gid winner s s1 ts h
    obtain ⟨_, _, _, hf, hw, _, _⟩ := completeGame_ok h
    exact ⟨hf, hw⟩

/-- Witness for C6: cancelling the demo Pending game under an oracle that
rejects every transfer reverts with "Refund failed" and records no state
change. -/
theorem transfer_failure_reverts_witness :
    cancelGame xferNone 1 1 sDemo1 = .error "Refund failed" ∧
    execTx (cancelGame xferNone 1 1 sDemo1) sDemo1 = sDemo1 :=
  transfer_failure_reverts.1 xferNone 1 1 sDemo1 rfl rfl rfl

/-- C7 (expiry monotonicity): on any Pending game, `cancelExpiredGame` fails
with the not-yet-expired condition whenever `now < expiresAt`, for every
caller; and whenever `now ≥ expiresAt` (and the host accepts the refund, as
an externally-owned account always does) it succeeds for every caller
whatsoever — `sender` is arbitrary and never inspected — refunding the host
exactly the wager and leaving the game Cancelled. -/
theorem cancel_expired_monotone (xfer : TransferOracle) (sender now gid : Nat)
    (s : ContractState) (hp : (s.games gid).status = .Pending) :
    (now < (s.games gid).expiresAt →
        cancelExpiredGame xfer sender now gid s = .error "Game has not expired yet") ∧
    ((s.games gid).expiresAt ≤ now →
        xfer (s.games gid).host (s.games gid).wager = true →
        txSucceeds (cancelExpiredGame xfer sender now gid s) = true ∧
        transfersOf (cancelExpiredGame xfer sender now gid s) =
          [((s.games gid).host, (s.games gid).wager)] ∧
        ((execTx (cancelExpiredGame xfer sender now gid s) s).games gid).status =
          .Cancelled) := by
  constructor
  · intro hlt
    simp only [cancelExpiredGame, requireThat_bind]
    rw [if_pos hp, if_neg (by omega : ¬(s.games gid).expiresAt ≤ now)]
  · intro hle hx
    have heq : cancelExpiredGame xfer sender now gid s =
        .ok ({ s with
                games := updFn s.games gid { s.games gid with status := .Cancelled }
                lockedFunds := updFn s.lockedFunds gid
                  (s.lockedFunds gid - (s.games gid).wager) },
             [((s.games gid).host, (s.games gid).wager)]) := by
      simp only [cancelExpiredGame, requireThat_bind]
      rw [if_pos hp, if_pos hle, if_pos hx]
    rw [heq]
    exact ⟨rfl, rfl, by simp [execTx, updFn]⟩

/-- Witness for C7: a third party (`5`) cancels the expired demo game at
time `4000 ≥ 3600`; the host is refunded `100` and the game is Cancelled. -/
theorem cancel_expired_monotone_witness :
    txSucceeds (cancelExpiredGame xferAll 5 4000 1 sDemo1) = true ∧
    transfersOf (cancelExpiredGame xferAll 5 4000 1 sDemo1) = [(1, 100)] ∧
    ((execTx (cancelExpiredGame xferAll 5 4000 1 sDemo1) sDemo1).games 1).status =
      .Cancelled :=
  (cancel_expired_monotone xferAll 5 4000 1 sDemo1 rfl).2 (by decide) rfl

/-- C8 (divergence witness): when a client's completion submission loses the
settlement race — the ledger rejects it with exactly "Game not active", as
the already-settled demo state shows — the client's catch branch surfaces
that failure to the user: `handleCompleteGame` alerts with the error message
(every caught error is alerted, with no classification of the benign
race-loss case) and rolls its local flags back, contradicting the claim that
this specific failure produces no user-facing alert. -/
theorem race_loss_submission_alerts :
    completeGame xferAll 1 1 2 sDemo3 = .error "Game not active" ∧
    handleCompleteGameReaction "0xPLAYER" (.error "Game not active") =
      { alertMessage := some "Game not active", gameOverFlag := false,
        completingFlag := false, winnerShown := none } ∧
    (handleCompleteGameReaction "0xPLAYER" (.error "Game not active")).alertMessage ≠
      none := by
  refine ⟨rfl, ?_, ?_⟩
  · simp [handleCompleteGameReaction]
  · simp [handleCompleteGameReaction]

/-- C9 (relay routing): with the sending session a member of its match room,
a `score-update` is delivered to exactly the room members — the sender
included — while `paddle-move` and `ball-update` are delivered to exactly
the room members other than the sender, and never echoed back to the
sender. -/
theorem relay_routing (sender : SessionId) (room : List SessionId)
    (hmem : sender ∈ room) (gid : Nat) (y : Int) (ball : BallSnapshot)
    (scores : ScorePair) :
    ((sender, OutEvent.scoreSync scores) ∈
        relayDeliveries sender room (.scoreUpdate gid scores)) ∧
    (∀ m, (m, OutEvent.scoreSync scores) ∈
        relayDeliveries sender room (.scoreUpdate gid scores) ↔ m ∈ room) ∧
    (∀ m, (m, OutEvent.opponentPaddle y) ∈
        relayDeliveries sender room (.paddleMove gid y) ↔ (m ∈ room ∧ m ≠ sender)) ∧
    (∀ m, (m, OutEvent.ballSync ball) ∈
        relayDeliveries sender room (.ballUpdate gid ball) ↔ (m ∈ room ∧ m ≠ sender)) ∧
    ((sender, OutEvent.opponentPaddle y) ∉
        relayDeliveries sender room (.paddleMove gid y)) ∧
    ((sender, OutEvent.ballSync ball) ∉
        relayDeliveries sender room (.ballUpdate gid ball)) := by
  refine ⟨?_, ?_, ?_, ?_, ?_, ?_⟩ <;>
    simp [relayDeliveries, ioToRoom, socketToRoom, List.mem_map, List.mem_filter, hmem]

/-- Witness for C9 in the two-member room `[1, 2]` with sender `1`: the
score reaches both `1` and `2`, while the paddle and ball updates reach `2`
but never bounce back to `1`. -/
theorem relay_routing_witness :
    ((1, OutEvent.scoreSync ⟨10, 3⟩) ∈
        relayDeliveries 1 [1, 2] (.scoreUpdate 7 ⟨10, 3⟩)) ∧
    ((2, OutEvent.opponentPaddle 5) ∈ relayDeliveries 1 [1, 2] (.paddleMove 7 5)) ∧
    ((1, OutEvent.opponentPaddle 5) ∉ relayDeliveries 1 [1, 2] (.paddleMove 7 5)) ∧
    ((2, OutEvent.ballSync ⟨1, 2, 3, 4, 5⟩) ∈
        relayDeliveries 1 [1, 2] (.ballUpdate 7 ⟨1, 2, 3, 4, 5⟩)) ∧
    ((1, OutEvent.ballSync ⟨1, 2, 3, 4, 5⟩) ∉
        relayDeliveries 1 [1, 2] (.ballUpdate 7 ⟨1, 2, 3, 4, 5⟩)) := by
  have h := relay_routing 1 [1, 2] (by simp) 7 5 ⟨1, 2, 3, 4, 5⟩ ⟨10, 3⟩
  exact ⟨h.1, (h.2.2.1 2).mpr (by simp), h.2.2.2.2.1,
    (h.2.2.2.1 2).mpr (by simp), h.2.2.2.2.2⟩

/-- C10 (winner named by board side): in a wagered (non-practice) match with
the on-chain match data present (truthy host and challenger), the terminal
branches of `updateBall` name the winner purely by which side reached 10:
the left side winning submits `gameData.host`, the right side winning
submits `gameData.player` — for every `gameData` whatsoever, i.e.
independently of whether the local participant (who always drives the left
paddle) is the host or the challenger; the decision consults no local
identity at all.  The edge dispatch is included: the ball past the left edge
scores for the right side and past the right edge for the left side. -/
theorem winner_named_by_side (gd : ClientGameData) (l r : Nat)
    (hh : gd.host ≠ "") (hp : gd.player ≠ "") :
    terminalSubmission false (some gd) .left = some (.address gd.host) ∧
    terminalSubmission false (some gd) .right = some (.address gd.player) ∧
    (10 ≤ l + 1 →
        scoreStepAction false (some gd) (l, r) .left =
          ((l + 1, r), some (.address gd.host))) ∧
    (10 ≤ r + 1 →
        scoreStepAction false (some gd) (l, r) .right =
          ((l, r + 1), some (.address gd.player))) ∧
    scorerOfBallX (-11) = some .right ∧
    scorerOfBallX 811 = some .left := by
  refine ⟨?_, ?_, ?_, ?_, by decide, by decide⟩
  · simp [terminalSubmission, hh]
  · simp [terminalSubmission, hp]
  · intro h10
    simp [scoreStepAction, h10, terminalSubmission, hh]
  · intro h10
    simp [scoreStepAction, h10, terminalSubmission, hp]

/-- Witness for C10: with host "0xHOST" and challenger "0xPLAYER", a left
score of 9 turning 10 submits the host, a right score of 9 turning 10
submits the challenger. -/
theorem winner_named_by_side_witness :
    terminalSubmission false (some ⟨"0xHOST", "0xPLAYER"⟩) .left =
      some (.address "0xHOST") ∧
    scoreStepAction false (some ⟨"0xHOST", "0xPLAYER"⟩) (9, 0) .left =
      ((10, 0), some (.address "0xHOST")) ∧
    scoreStepAction false (some ⟨"0xHOST", "0xPLAYER"⟩) (0, 9) .right =
      ((0, 10), some (.address "0xPLAYER")) := by
  have h1 := winner_named_by_side ⟨"0xHOST", "0xPLAYER"⟩ 9 0 (by decide) (by decide)
  have h2 := winner_named_by_side ⟨"0xHOST", "0xPLAYER"⟩ 0 9 (by decide) (by decide)
  exact ⟨h1.1, h1.2.2.1 (by decide), h2.2.2.2.1 (by decide)⟩

end BaseBall
